import Mathlib

/-
Verification of the Bubblegum leaf-metadata update validator
(`bubblegum/program/src/update_metadata.rs`) and the creator-hash
computation from the test harness (`bubblegum/program/src/tests/mod.rs`).

Shallow embedding conventions:
* `Pubkey` (a 32-byte ed25519 key) is modelled as its byte list; the code
  only compares keys for equality and feeds their bytes to the hash.
* Rust `u8`/`u16`/`u64` fields are modelled as `Nat`; the one place where
  overflow matters — `share_total.checked_add(creator.share)` on `u8` —
  is modelled by the explicit bound check `255 < share_total + c.share`.
* Rust `Result<(), BubblegumError>` becomes `Except BubblegumError Unit`.
* The two `HashMap`s built by `assert_data_valid` have unspecified
  iteration order.  The loops are therefore embedded as functions of an
  explicit iteration sequence (`newIter`, a sequence of the map's entries;
  `oldKeyIter`, a sequence of the map's keys).  For the new-creators map,
  once the duplicate-address check has passed the entry multiset equals
  the creator list, so a possible iteration order is exactly a permutation
  of `new.creators`.  For the old-creators map (built from `old.creators`
  with later duplicates overwriting earlier ones) the key set is the set
  of distinct addresses and each key maps to its last occurrence, so a
  possible iteration order is a permutation of the deduplicated address
  list, each key looked up by `lookupLast`.  The canonical instances fix
  list order; order-independence of the Ok/Err verdict is proved
  separately.
-/

/-- A Solana public key, modelled as its byte list. -/
abbrev Pubkey := List Nat

/-- `state::metaplex_adapter::Creator`: address, verified flag, share (u8). -/
structure Creator where
  address : Pubkey
  verified : Bool
  share : Nat
deriving DecidableEq, Repr

/-- `state::metaplex_adapter::Collection`: verified flag and collection key. -/
structure Collection where
  verified : Bool
  key : Pubkey
deriving DecidableEq, Repr

/-- `state::metaplex_adapter::UseMethod`. -/
inductive UseMethod where
  | Burn
  | Single
  | Multiple
deriving DecidableEq, Repr

/-- `state::metaplex_adapter::Uses`: use method, total (u64), remaining (u64). -/
structure Uses where
  use_method : UseMethod
  total : Nat
  remaining : Nat
deriving DecidableEq, Repr

/-- `state::metaplex_adapter::TokenStandard` (carried by `MetadataArgs`,
never inspected by the update validator). -/
inductive TokenStandard where
  | NonFungible
  | FungibleAsset
  | Fungible
  | NonFungibleEdition
deriving DecidableEq, Repr

/-- `state::metaplex_adapter::TokenProgramVersion` (carried by `MetadataArgs`,
never inspected by the update validator). -/
inductive TokenProgramVersion where
  | Original
  | Token2022
deriving DecidableEq, Repr

/-- `state::metaplex_adapter::MetadataArgs`.  `name`, `symbol` and `uri`
are Rust `String`s whose `len()` is a byte count, so they are modelled as
byte lists. -/
structure MetadataArgs where
  name : List Nat
  symbol : List Nat
  uri : List Nat
  seller_fee_basis_points : Nat
  primary_sale_happened : Bool
  is_mutable : Bool
  edition_nonce : Option Nat
  token_standard : Option TokenStandard
  token_program_version : TokenProgramVersion
  collection : Option Collection
  uses : Option Uses
  creators : List Creator
deriving DecidableEq, Repr

/-- `BubblegumError` (`error.rs`): the variants of `error.rs` together with
the variants referenced by `update_metadata.rs` (the copy of `error.rs`
under `src/` predates the update-metadata module and lacks them). -/
inductive BubblegumError where
  | AssetOwnerMismatch
  | PublicKeyMismatch
  | HashingMismatch
  | UnsupportedSchemaVersion
  | CreatorShareTotalMustBe100
  | DuplicateCreatorAddress
  | CreatorsTooLong
  | MetadataNameTooLong
  | MetadataSymbolTooLong
  | MetadataUriTooLong
  | MetadataBasisPointsTooHigh
  | InsufficientMintCapacity
  | MintRequestNotApproved
  | MintRequestKeyMismatch
  | MintRequestDiscriminatorMismatch
  | CloseMintRequestError
  | NoCreatorsPresent
  | NumericalOverflowError
  | CannotVerifyAnotherCreator
  | CannotUnverifyAnotherCreator
  | CannotUpdateVerifiedCollection
  | CollectionCannotBeVerifiedInThisInstruction
  | InvalidUseMethod
  | CannotChangeUseMethodAfterFirstUse
  | CannotChangeUsesAfterFirstUse
  | DataIsImmutable
  | PrimarySaleCanOnlyBeFlippedToTrue
  | IsMutableCanOnlyBeFlippedToFalse
deriving DecidableEq, Repr

instance : DecidableEq (Except BubblegumError Unit) := fun a b =>
  match a, b with
  | .ok (), .ok () => isTrue rfl
  | .error x, .error y =>
    match decEq x y with
    | isTrue h => isTrue (h ▸ rfl)
    | isFalse h => isFalse (fun he => h (Except.error.inj he))
  | .ok _, .error _ => isFalse (fun h => Except.noConfusion h)
  | .error _, .ok _ => isFalse (fun h => Except.noConfusion h)

/-- `mpl_token_metadata::state::MAX_NAME_LENGTH`. -/
def MAX_NAME_LENGTH : Nat := 32

/-- `mpl_token_metadata::state::MAX_SYMBOL_LENGTH`. -/
def MAX_SYMBOL_LENGTH : Nat := 10

/-- `mpl_token_metadata::state::MAX_URI_LENGTH`. -/
def MAX_URI_LENGTH : Nat := 200

/-- `mpl_token_metadata::state::MAX_CREATOR_LIMIT`. -/
def MAX_CREATOR_LIMIT : Nat := 5

/-- The creator a `HashMap` built by `iter().map(|c| (&c.address, c)).collect()`
associates to a key: collecting overwrites earlier entries with later ones,
so lookup returns the last occurrence of the address in the list (and
`contains_key` holds iff some occurrence exists). -/
def lookupLast (a : Pubkey) : List Creator → Option Creator
  | [] => none
  | c :: rest =>
    match lookupLast a rest with
    | some r => some r
    | none => if c.address = a then some c else none

/-- The addresses of a creator list. -/
def creatorAddresses (l : List Creator) : List Pubkey :=
  l.map Creator.address

/-- Sum of the `share` fields of a creator list. -/
def sumShares (l : List Creator) : Nat :=
  (l.map Creator.share).sum

/-- The `for (address, creator) in &new_creators_map` loop of
`assert_data_valid` (update_metadata.rs lines 154-198), iterating over the
explicitly supplied entry sequence `l` and threading `share_total`.
Per iteration: `share_total.checked_add(creator.share)` (u8 overflow check),
then the `allow_direct_creator_writes` skip, the self-signing
update-authority skip, and the verified-flag checks against the existing
creators map (always `Some` in the source: `Some(&old.creators).map(...)`),
whose lookup is `lookupLast`. -/
def creatorsLoop (update_authority : Pubkey) (oldCreators : List Creator)
    (allow_direct_creator_writes update_authority_is_signer : Bool) :
    List Creator → Nat → Except BubblegumError Nat
  | [], share_total => .ok share_total
  | c :: rest, share_total =>
    if 255 < share_total + c.share then
      .error .NumericalOverflowError
    else if allow_direct_creator_writes then
      creatorsLoop update_authority oldCreators allow_direct_creator_writes
        update_authority_is_signer rest (share_total + c.share)
    else if update_authority_is_signer ∧ c.address = update_authority then
      creatorsLoop update_authority oldCreators allow_direct_creator_writes
        update_authority_is_signer rest (share_total + c.share)
    else
      match lookupLast c.address oldCreators with
      | some existing =>
        if c.verified ∧ ¬ existing.verified then
          .error .CannotVerifyAnotherCreator
        else if ¬ c.verified ∧ existing.verified then
          .error .CannotUnverifyAnotherCreator
        else
          creatorsLoop update_authority oldCreators allow_direct_creator_writes
            update_authority_is_signer rest (share_total + c.share)
      | none =>
        if c.verified then
          .error .CannotVerifyAnotherCreator
        else
          creatorsLoop update_authority oldCreators allow_direct_creator_writes
            update_authority_is_signer rest (share_total + c.share)

/-- The `for (address, existing_creator) in existing_creators_map` loop of
`assert_data_valid` (update_metadata.rs lines 209-220), iterating over the
explicitly supplied key sequence; each key's entry is its last occurrence
in `oldCreators`. -/
def existingCreatorsLoop (update_authority : Pubkey)
    (update_authority_is_signer : Bool) (newCreators oldCreators : List Creator) :
    List Pubkey → Except BubblegumError Unit
  | [] => .ok ()
  | a :: rest =>
    match lookupLast a oldCreators with
    | none =>
      existingCreatorsLoop update_authority update_authority_is_signer
        newCreators oldCreators rest
    | some existing =>
      if update_authority_is_signer ∧ a = update_authority then
        existingCreatorsLoop update_authority update_authority_is_signer
          newCreators oldCreators rest
      else if a ∉ creatorAddresses newCreators ∧ existing.verified then
        .error .CannotUnverifyAnotherCreator
      else
        existingCreatorsLoop update_authority update_authority_is_signer
          newCreators oldCreators rest

/-- `assert_data_valid` (update_metadata.rs lines 102-224), with the two
`HashMap` iteration sequences passed explicitly.  The duplicate-address
check compares the new map's size — the number of distinct addresses,
`(creatorAddresses new.creators).dedup.length` — with the list length.
The `if let Some(creators) = Some(&new.creators)` wrapper always matches
and is dropped. -/
def assert_data_validIter (new : MetadataArgs) (update_authority : Pubkey)
    (old : MetadataArgs)
    (allow_direct_creator_writes update_authority_is_signer : Bool)
    (newIter : List Creator) (oldKeyIter : List Pubkey) :
    Except BubblegumError Unit :=
  if MAX_NAME_LENGTH < new.name.length then .error .MetadataNameTooLong
  else if MAX_SYMBOL_LENGTH < new.symbol.length then .error .MetadataSymbolTooLong
  else if MAX_URI_LENGTH < new.uri.length then .error .MetadataUriTooLong
  else if 10000 < new.seller_fee_basis_points then .error .MetadataBasisPointsTooHigh
  else if MAX_CREATOR_LIMIT < new.creators.length then .error .CreatorsTooLong
  else if new.creators = [] then .error .NoCreatorsPresent
  else if (creatorAddresses new.creators).dedup.length ≠ new.creators.length then
    .error .DuplicateCreatorAddress
  else
    match creatorsLoop update_authority old.creators allow_direct_creator_writes
        update_authority_is_signer newIter 0 with
    | .error e => .error e
    | .ok share_total =>
      if share_total ≠ 100 then .error .CreatorShareTotalMustBe100
      else if allow_direct_creator_writes then .ok ()
      else
        existingCreatorsLoop update_authority update_authority_is_signer
          new.creators old.creators oldKeyIter

/-- `assert_data_valid` with the canonical iteration orders: the new map's
entries in list order (legitimate because, past the duplicate check, the
entry multiset equals the list) and the old map's keys in first-occurrence
order. -/
def assert_data_valid (new : MetadataArgs) (update_authority : Pubkey)
    (old : MetadataArgs)
    (allow_direct_creator_writes update_authority_is_signer : Bool) :
    Except BubblegumError Unit :=
  assert_data_validIter new update_authority old allow_direct_creator_writes
    update_authority_is_signer new.creators (creatorAddresses old.creators).dedup

/-- `assert_collection_update_is_valid` (update_metadata.rs lines 228-246). -/
def assert_collection_update_is_valid (edition : Bool)
    (existing incoming : Option Collection) : Except BubblegumError Unit :=
  let is_incoming_verified_true : Bool :=
    match incoming with
    | some i => i.verified
    | none => false
  let is_incoming_data_valid : Bool :=
    !is_incoming_verified_true ||
      (match existing, incoming with
       | some e, some i => decide (i.verified = e.verified ∧ i.key = e.key)
       | _, _ => false)
  if !is_incoming_data_valid && !edition then
    .error .CollectionCannotBeVerifiedInThisInstruction
  else
    .ok ()

/-- The `match (incoming_use, current_use)` block of `assert_valid_use`
(update_metadata.rs lines 259-273); the source's early `return Err(...)`
statements become an if/else chain. -/
def assert_valid_use_pair (incoming_use current_use : Option Uses) :
    Except BubblegumError Unit :=
  match incoming_use, current_use with
  | some incoming, some current =>
    if incoming.use_method ≠ current.use_method ∧ current.total ≠ current.remaining then
      .error .CannotChangeUseMethodAfterFirstUse
    else if incoming.total ≠ current.total ∧ current.total ≠ current.remaining then
      .error .CannotChangeUsesAfterFirstUse
    else if incoming.remaining ≠ current.remaining ∧ current.total ≠ current.remaining then
      .error .CannotChangeUsesAfterFirstUse
    else .ok ()
  | _, _ => .ok ()

/-- `assert_valid_use` (update_metadata.rs lines 250-274): the two
well-formedness checks on the incoming record (early returns become an
if/else chain), then the frozen-after-first-use checks on the pair. -/
def assert_valid_use (incoming_use current_use : Option Uses) :
    Except BubblegumError Unit :=
  match incoming_use with
  | some i =>
    if i.use_method = UseMethod.Single ∧ (i.total ≠ 1 ∨ i.remaining ≠ 1) then
      .error .InvalidUseMethod
    else if i.use_method = UseMethod.Multiple ∧ (i.total < 2 ∨ i.total < i.remaining) then
      .error .InvalidUseMethod
    else
      assert_valid_use_pair incoming_use current_use
  | none => assert_valid_use_pair incoming_use current_use

/-- The collection branch of `process_update_metadata_accounts_v2`
(update_metadata.rs lines 47-57): if the new collection is present,
delegate to `assert_collection_update_is_valid`; otherwise a verified old
collection may not be cleared. -/
def collection_update_step (old new : MetadataArgs) : Except BubblegumError Unit :=
  if new.collection.isSome then
    assert_collection_update_is_valid false old.collection new.collection
  else
    match old.collection with
    | some collection =>
      if collection.verified then .error .CannotUpdateVerifiedCollection
      else .ok ()
    | none => .ok ()

/-- `process_update_metadata_accounts_v2` (update_metadata.rs lines 15-98),
with the `HashMap` iteration sequences of `assert_data_valid` passed
explicitly.  The call passes `allow_direct_creator_writes = false` and
`update_authority_is_signer = true`, then runs the collection step, the
uses check, the primary-sale flip check and the is-mutable flip check. -/
def process_update_metadata_accounts_v2Iter (new old : MetadataArgs)
    (update_authority : Pubkey) (newIter : List Creator)
    (oldKeyIter : List Pubkey) : Except BubblegumError Unit := do
  if old.is_mutable then
    assert_data_validIter new update_authority old false true newIter oldKeyIter
    collection_update_step old new
    assert_valid_use new.uses old.uses
  else
    throw BubblegumError.DataIsImmutable
  let val := new.primary_sale_happened
  if val ∨ ¬ old.primary_sale_happened then
    pure ()
  else
    throw BubblegumError.PrimarySaleCanOnlyBeFlippedToTrue
  let val2 := new.is_mutable
  if ¬ val2 ∨ old.is_mutable then
    pure ()
  else
    throw BubblegumError.IsMutableCanOnlyBeFlippedToFalse

/-- `process_update_metadata_accounts_v2` with the canonical iteration
orders (see `assert_data_valid`). -/
def process_update_metadata_accounts_v2 (new old : MetadataArgs)
    (update_authority : Pubkey) : Except BubblegumError Unit :=
  process_update_metadata_accounts_v2Iter new old update_authority
    new.creators (creatorAddresses old.creators).dedup

/-- Per-creator hash input segments as built by `compute_metadata_hashes`
(tests/mod.rs lines 375-385): for each creator, in list order,
`[c.address.as_ref(), &[c.verified as u8], &[c.share]].concat()`. -/
def creator_data (creators : List Creator) : List (List Nat) :=
  creators.map fun c =>
    List.flatten [c.address, [if c.verified then 1 else 0], [c.share]]

/-- The creator hash of `compute_metadata_hashes` (tests/mod.rs lines
387-395): `keccak::hashv` applied to the per-creator segments, one segment
per creator.  `keccak_hashv` abstracts the keccak multi-part digest. -/
def compute_creator_hash (keccak_hashv : List (List Nat) → List Nat)
    (creators : List Creator) : List Nat :=
  keccak_hashv (creator_data creators)

/-- The verified-flag condition the `new_creators_map` loop enforces against
the old-creators map entry at the same address: matching flags when the
address exists in the old list, unverified when it does not. -/
def verifiedFlagOk : Option Creator → Bool → Prop
  | some existing, v => v = existing.verified
  | none, v => v = false

instance (o : Option Creator) (v : Bool) : Decidable (verifiedFlagOk o v) :=
  match o with
  | some e => (inferInstance : Decidable (v = e.verified))
  | none => (inferInstance : Decidable (v = false))

/-- The per-creator condition under which an iteration of the
`new_creators_map` loop does not error (its overflow check aside). -/
def creatorPass (update_authority : Pubkey) (oldCreators : List Creator)
    (allow_direct_creator_writes update_authority_is_signer : Bool)
    (c : Creator) : Prop :=
  allow_direct_creator_writes = true ∨
    (update_authority_is_signer = true ∧ c.address = update_authority) ∨
    verifiedFlagOk (lookupLast c.address oldCreators) c.verified

instance (ua : Pubkey) (oldC : List Creator) (allow signer : Bool) (c : Creator) :
    Decidable (creatorPass ua oldC allow signer c) := by
  unfold creatorPass; exact inferInstance

/-- The per-key condition under which an iteration of the
`existing_creators_map` loop does not error. -/
def oldKeyPass (update_authority : Pubkey) (update_authority_is_signer : Bool)
    (newCreators oldCreators : List Creator) (a : Pubkey) : Prop :=
  match lookupLast a oldCreators with
  | none => True
  | some existing =>
    (update_authority_is_signer = true ∧ a = update_authority) ∨
      a ∈ creatorAddresses newCreators ∨ existing.verified = false

instance (ua : Pubkey) (signer : Bool) (newC oldC : List Creator) (a : Pubkey) :
    Decidable (oldKeyPass ua signer newC oldC a) :=
  match h : lookupLast a oldC with
  | some e => by unfold oldKeyPass; rw [h]; exact inferInstance
  | none => by unfold oldKeyPass; rw [h]; exact inferInstance

/-- The `new_creators_map` loop succeeds over an iteration sequence `l` iff
no prefix of the share sum overflows `u8` — equivalently, the whole sum
stays within 255 — and every creator of `l` passes the verified-flag
authorization; the returned total is then the initial value plus the sum of
the shares. -/
lemma creatorsLoop_ok_iff (ua : Pubkey) (oldC : List Creator)
    (allow signer : Bool) (l : List Creator) (init t : Nat)
    (hinit : init ≤ 255) :
    creatorsLoop ua oldC allow signer l init = .ok t ↔
      (init + sumShares l ≤ 255 ∧
        (∀ c ∈ l, creatorPass ua oldC allow signer c) ∧
        t = init + sumShares l) := by
  induction l generalizing init with
  | nil =>
    simp only [creatorsLoop, sumShares, List.map_nil, List.sum_nil,
      List.not_mem_nil, Nat.add_zero, Except.ok.injEq]
    constructor
    · intro h; exact ⟨hinit, by simp, h.symm⟩
    · rintro ⟨-, -, h⟩; exact h.symm
  | cons c rest ih =>
    have hsum : sumShares (c :: rest) = c.share + sumShares rest := by
      simp [sumShares]
    rw [hsum]
    simp only [creatorsLoop]
    split
    · -- overflow: 255 < init + c.share
      rename_i hov
      constructor
      · intro h; exact absurd h (by simp)
      · rintro ⟨h1, -, -⟩; exact absurd h1 (by omega)
    · rename_i hov
      have hinit' : init + c.share ≤ 255 := by omega
      split
      · -- allow_direct_creator_writes
        rename_i hallow
        rw [ih (init + c.share) hinit']
        simp only [List.mem_cons, forall_eq_or_imp]
        constructor
        · rintro ⟨h1, h2, h3⟩
          exact ⟨by omega, ⟨Or.inl hallow, h2⟩, by omega⟩
        · rintro ⟨h1, ⟨-, h2⟩, h3⟩
          exact ⟨by omega, h2, by omega⟩
      · rename_i hallow
        split
        · -- self-signing update authority
          rename_i hself
          rw [ih (init + c.share) hinit']
          simp only [List.mem_cons, forall_eq_or_imp]
          constructor
          · rintro ⟨h1, h2, h3⟩
            exact ⟨by omega, ⟨Or.inr (Or.inl hself), h2⟩, by omega⟩
          · rintro ⟨h1, ⟨-, h2⟩, h3⟩
            exact ⟨by omega, h2, by omega⟩
        · rename_i hself
          have hnself : ¬ (signer = true ∧ c.address = ua) := hself
          split
          · -- lookupLast = some existing
            rename_i existing hlook
            split
            · -- verified set but existing unverified
              rename_i hbad
              constructor
              · intro h; exact absurd h (by simp)
              · rintro ⟨-, h2, -⟩
                rcases h2 c (List.mem_cons_self c rest) with h | h | h
                · exact absurd h (by simp_all)
                · exact absurd h hnself
                · rw [hlook] at h
                  unfold verifiedFlagOk at h
                  simp_all
            · rename_i hbad1
              split
              · -- verified cleared but existing verified
                rename_i hbad
                constructor
                · intro h; exact absurd h (by simp)
                · rintro ⟨-, h2, -⟩
                  rcases h2 c (List.mem_cons_self c rest) with h | h | h
                  · exact absurd h (by simp_all)
                  · exact absurd h hnself
                  · rw [hlook] at h
                    unfold verifiedFlagOk at h
                    simp_all
              · rename_i hbad2
                have hflag : verifiedFlagOk (lookupLast c.address oldC) c.verified := by
                  rw [hlook]; unfold verifiedFlagOk
                  rcases hcv : c.verified <;> rcases hev : existing.verified <;> simp_all
                rw [ih (init + c.share) hinit']
                simp only [List.mem_cons, forall_eq_or_imp]
                constructor
                · rintro ⟨h1, h2, h3⟩
                  exact ⟨by omega, ⟨Or.inr (Or.inr hflag), h2⟩, by omega⟩
                · rintro ⟨h1, ⟨-, h2⟩, h3⟩
                  exact ⟨by omega, h2, by omega⟩
          · -- lookupLast = none
            rename_i hlook
            split
            · -- verified set for an address absent from the old list
              rename_i hbad
              constructor
              · intro h; exact absurd h (by simp)
              · rintro ⟨-, h2, -⟩
                rcases h2 c (List.mem_cons_self c rest) with h | h | h
                · exact absurd h (by simp_all)
                · exact absurd h hnself
                · rw [hlook] at h
                  unfold verifiedFlagOk at h
                  simp_all
            · rename_i hgood
              have hflag : verifiedFlagOk (lookupLast c.address oldC) c.verified := by
                rw [hlook]; unfold verifiedFlagOk; simp_all
              rw [ih (init + c.share) hinit']
              simp only [List.mem_cons, forall_eq_or_imp]
              constructor
              · rintro ⟨h1, h2, h3⟩
                exact ⟨by omega, ⟨Or.inr (Or.inr hflag), h2⟩, by omega⟩
              · rintro ⟨h1, ⟨-, h2⟩, h3⟩
                exact ⟨by omega, h2, by omega⟩

/-- The `existing_creators_map` loop succeeds over a key sequence iff every
key passes: the key is the signing update authority, or still present in
the new list, or its (last-occurrence) old entry is unverified. -/
lemma existingCreatorsLoop_ok_iff (ua : Pubkey) (signer : Bool)
    (newC oldC : List Creator) (keys : List Pubkey) :
    existingCreatorsLoop ua signer newC oldC keys = .ok () ↔
      ∀ a ∈ keys, oldKeyPass ua signer newC oldC a := by
  induction keys with
  | nil => simp [existingCreatorsLoop]
  | cons a rest ih =>
    simp only [existingCreatorsLoop]
    split
    · -- lookupLast a oldC = none
      rename_i hlook
      rw [ih]
      simp only [List.mem_cons, forall_eq_or_imp]
      constructor
      · intro h
        refine ⟨?_, h⟩
        unfold oldKeyPass
        rw [hlook]
        trivial
      · rintro ⟨-, h⟩; exact h
    · rename_i existing hlook
      split
      · -- signing update authority
        rename_i hself
        rw [ih]
        simp only [List.mem_cons, forall_eq_or_imp]
        constructor
        · intro h
          refine ⟨?_, h⟩
          unfold oldKeyPass
          rw [hlook]
          exact Or.inl hself
        · rintro ⟨-, h⟩; exact h
      · rename_i hself
        split
        · -- dropped verified creator
          rename_i hbad
          constructor
          · intro h; exact absurd h (by simp)
          · intro h
            have ha := h a (List.mem_cons_self a rest)
            unfold oldKeyPass at ha
            rw [hlook] at ha
            rcases ha with ha | ha | ha
            · exact absurd ha hself
            · exact absurd ha hbad.1
            · rw [hbad.2] at ha; cases ha
        · rename_i hgood
          rw [ih]
          simp only [List.mem_cons, forall_eq_or_imp]
          constructor
          · intro h
            refine ⟨?_, h⟩
            unfold oldKeyPass
            rw [hlook]
            by_cases hmem : a ∈ creatorAddresses newC
            · exact Or.inr (Or.inl hmem)
            · refine Or.inr (Or.inr ?_)
              rcases hev : existing.verified
              · rfl
              · exact absurd ⟨hmem, hev⟩ hgood
          · rintro ⟨-, h⟩; exact h


/-- `assert_data_valid` (over explicit map iteration sequences) succeeds iff:
the three string fields and the basis points are within bounds, the creator
list is within the length limit, non-empty and duplicate-free, every
iterated creator passes the verified-flag authorization, the shares sum to
exactly 100, and (direct-writes mode aside) every old-map key passes the
dropped-verified-creator check. -/
lemma assert_data_validIter_ok_iff (new : MetadataArgs) (ua : Pubkey)
    (old : MetadataArgs) (allow signer : Bool) (nIter : List Creator)
    (kIter : List Pubkey) :
    assert_data_validIter new ua old allow signer nIter kIter = .ok () ↔
      (new.name.length ≤ MAX_NAME_LENGTH ∧
       new.symbol.length ≤ MAX_SYMBOL_LENGTH ∧
       new.uri.length ≤ MAX_URI_LENGTH ∧
       new.seller_fee_basis_points ≤ 10000 ∧
       new.creators.length ≤ MAX_CREATOR_LIMIT ∧
       new.creators ≠ [] ∧
       (creatorAddresses new.creators).dedup.length = new.creators.length ∧
       (∀ c ∈ nIter, creatorPass ua old.creators allow signer c) ∧
       sumShares nIter = 100 ∧
       (allow = true ∨
         ∀ a ∈ kIter, oldKeyPass ua signer new.creators old.creators a)) := by
  unfold assert_data_validIter
  split
  · rename_i h
    constructor
    · intro hc; exact absurd hc (by simp)
    · rintro ⟨h1, -⟩; exact absurd h1 (by omega)
  rename_i h1
  split
  · rename_i h
    constructor
    · intro hc; exact absurd hc (by simp)
    · rintro ⟨-, h2, -⟩; exact absurd h2 (by omega)
  rename_i h2
  split
  · rename_i h
    constructor
    · intro hc; exact absurd hc (by simp)
    · rintro ⟨-, -, h3, -⟩; exact absurd h3 (by omega)
  rename_i h3
  split
  · rename_i h
    constructor
    · intro hc; exact absurd hc (by simp)
    · rintro ⟨-, -, -, h4, -⟩; exact absurd h4 (by omega)
  rename_i h4
  split
  · rename_i h
    constructor
    · intro hc; exact absurd hc (by simp)
    · rintro ⟨-, -, -, -, h5, -⟩; exact absurd h5 (by omega)
  rename_i h5
  split
  · rename_i h
    constructor
    · intro hc; exact absurd hc (by simp)
    · rintro ⟨-, -, -, -, -, h6, -⟩; exact absurd h h6
  rename_i h6
  split
  · rename_i h
    constructor
    · intro hc; exact absurd hc (by simp)
    · rintro ⟨-, -, -, -, -, -, h7, -⟩; exact absurd h7 h
  rename_i h7
  split
  · -- creatorsLoop errored
    rename_i e hloop
    constructor
    · intro hc; exact absurd hc (by simp)
    · rintro ⟨-, -, -, -, -, -, -, h8, h9, -⟩
      have hok : creatorsLoop ua old.creators allow signer nIter 0 =
          .ok (0 + sumShares nIter) := by
        rw [creatorsLoop_ok_iff _ _ _ _ _ _ _ (by omega)]
        exact ⟨by omega, h8, rfl⟩
      rw [hloop] at hok
      cases hok
  · -- creatorsLoop returned a share total
    rename_i t hloop
    obtain ⟨hA, hB, hC⟩ :=
      (creatorsLoop_ok_iff ua old.creators allow signer nIter 0 t (by omega)).1 hloop
    split
    · rename_i ht
      constructor
      · intro hc; exact absurd hc (by simp)
      · rintro ⟨-, -, -, -, -, -, -, -, h9, -⟩
        exact absurd (show t = 100 by omega) ht
    · rename_i ht
      have ht100 : t = 100 := not_ne_iff.mp ht
      split
      · rename_i hallow
        constructor
        · intro hok
          refine ⟨?_, ?_, ?_, ?_, ?_, ?_, ?_, ?_, ?_, ?_⟩
          · exact Nat.not_lt.mp h1
          · exact Nat.not_lt.mp h2
          · exact Nat.not_lt.mp h3
          · exact Nat.not_lt.mp h4
          · exact Nat.not_lt.mp h5
          · exact h6
          · exact not_ne_iff.mp h7
          · exact hB
          · omega
          · exact Or.inl hallow
        · intro hrhs; rfl
      · rename_i hallow
        rw [existingCreatorsLoop_ok_iff]
        constructor
        · intro hkeys
          exact ⟨Nat.not_lt.mp h1, Nat.not_lt.mp h2, Nat.not_lt.mp h3,
            Nat.not_lt.mp h4, Nat.not_lt.mp h5, h6, not_ne_iff.mp h7, hB,
            by omega, Or.inr hkeys⟩
        · rintro ⟨-, -, -, -, -, -, -, -, -, hor⟩
          rcases hor with hor | hor
          · exact absurd hor hallow
          · exact hor

/-- `process_update_metadata_accounts_v2` (over explicit iteration
sequences) succeeds iff the old record is mutable, the data validation,
the collection step and the uses check all succeed, and the primary-sale
flag does not transition true→false.  (The final is-mutable check cannot
fail once the old record is known to be mutable.) -/
lemma processIter_ok_iff (new old : MetadataArgs) (ua : Pubkey)
    (nIter : List Creator) (kIter : List Pubkey) :
    process_update_metadata_accounts_v2Iter new old ua nIter kIter = .ok () ↔
      (old.is_mutable = true ∧
       assert_data_validIter new ua old false true nIter kIter = .ok () ∧
       collection_update_step old new = .ok () ∧
       assert_valid_use new.uses old.uses = .ok () ∧
       (new.primary_sale_happened = true ∨ old.primary_sale_happened = false)) := by
  cases hm : old.is_mutable
  · simp [process_update_metadata_accounts_v2Iter, hm, Bind.bind, Except.bind,
      throw, throwThe, MonadExceptOf.throw]
  · cases hadv : assert_data_validIter new ua old false true nIter kIter with
    | error e =>
      simp [process_update_metadata_accounts_v2Iter, hm, hadv, Bind.bind,
        Except.bind]
    | ok u =>
      cases u
      cases hcol : collection_update_step old new with
      | error e =>
        simp [process_update_metadata_accounts_v2Iter, hm, hadv, hcol,
          Bind.bind, Except.bind]
      | ok u =>
        cases u
        cases huse : assert_valid_use new.uses old.uses with
        | error e =>
          simp [process_update_metadata_accounts_v2Iter, hm, hadv, hcol, huse,
            Bind.bind, Except.bind]
        | ok u =>
          cases u
          cases hpn : new.primary_sale_happened <;>
            cases hpo : old.primary_sale_happened <;>
              simp [process_update_metadata_accounts_v2Iter, hm, hadv, hcol,
                huse, hpn, hpo, Bind.bind, Except.bind, pure, Except.pure,
                throw, throwThe, MonadExceptOf.throw]

/-- The `new_creators_map` loop never produces
`IsMutableCanOnlyBeFlippedToFalse`. -/
lemma creatorsLoop_ne_flip (ua : Pubkey) (oldC : List Creator)
    (allow signer : Bool) (l : List Creator) (init : Nat) :
    creatorsLoop ua oldC allow signer l init ≠
      .error .IsMutableCanOnlyBeFlippedToFalse := by
  induction l generalizing init with
  | nil => simp [creatorsLoop]
  | cons c rest ih =>
    simp only [creatorsLoop]
    split
    · simp
    · split
      · exact ih _
      · split
        · exact ih _
        · split
          · split
            · simp
            · split
              · simp
              · exact ih _
          · split
            · simp
            · exact ih _

/-- The `existing_creators_map` loop never produces
`IsMutableCanOnlyBeFlippedToFalse`. -/
lemma existingCreatorsLoop_ne_flip (ua : Pubkey) (signer : Bool)
    (newC oldC : List Creator) (keys : List Pubkey) :
    existingCreatorsLoop ua signer newC oldC keys ≠
      .error .IsMutableCanOnlyBeFlippedToFalse := by
  induction keys with
  | nil => simp [existingCreatorsLoop]
  | cons a rest ih =>
    simp only [existingCreatorsLoop]
    split
    · exact ih
    · split
      · exact ih
      · split
        · simp
        · exact ih

/-- `assert_data_valid` never produces `IsMutableCanOnlyBeFlippedToFalse`. -/
lemma assert_data_validIter_ne_flip (new : MetadataArgs) (ua : Pubkey)
    (old : MetadataArgs) (allow signer : Bool) (nIter : List Creator)
    (kIter : List Pubkey) :
    assert_data_validIter new ua old allow signer nIter kIter ≠
      .error .IsMutableCanOnlyBeFlippedToFalse := by
  unfold assert_data_validIter
  split
  · simp
  split
  · simp
  split
  · simp
  split
  · simp
  split
  · simp
  split
  · simp
  split
  · simp
  split
  · rename_i e hloop
    intro hc
    rw [Except.error.injEq] at hc
    rw [hc] at hloop
    exact creatorsLoop_ne_flip ua old.creators allow signer nIter 0 hloop
  · split
    · simp
    · split
      · simp
      · exact existingCreatorsLoop_ne_flip ua signer new.creators old.creators kIter

/-- The collection step never produces `IsMutableCanOnlyBeFlippedToFalse`. -/
lemma collection_update_step_ne_flip (old new : MetadataArgs) :
    collection_update_step old new ≠
      .error .IsMutableCanOnlyBeFlippedToFalse := by
  unfold collection_update_step assert_collection_update_is_valid
  repeat' split
  all_goals simp
  all_goals repeat' split
  all_goals simp

/-- `assert_valid_use` never produces `IsMutableCanOnlyBeFlippedToFalse`. -/
lemma assert_valid_use_ne_flip (incoming_use current_use : Option Uses) :
    assert_valid_use incoming_use current_use ≠
      .error .IsMutableCanOnlyBeFlippedToFalse := by
  unfold assert_valid_use assert_valid_use_pair
  repeat' split
  all_goals simp

/-- A successful `lookupLast` returns an element of the list bearing the
looked-up address. -/
lemma lookupLast_some (a : Pubkey) (l : List Creator) (e : Creator)
    (h : lookupLast a l = some e) : e ∈ l ∧ e.address = a := by
  induction l with
  | nil => cases h
  | cons c rest ih =>
    simp only [lookupLast] at h
    split at h
    · rename_i r hr
      injection h with he
      subst he
      obtain ⟨hm, ha⟩ := ih hr
      exact ⟨List.mem_cons_of_mem c hm, ha⟩
    · split at h
      · rename_i hca
        injection h with he
        subst he
        exact ⟨List.mem_cons_self c rest, hca⟩
      · cases h

/-- `lookupLast` misses exactly when no element bears the address. -/
lemma lookupLast_eq_none_iff (a : Pubkey) (l : List Creator) :
    lookupLast a l = none ↔ ∀ c ∈ l, c.address ≠ a := by
  induction l with
  | nil => simp [lookupLast]
  | cons c rest ih =>
    simp only [lookupLast]
    split
    · rename_i r hr
      simp only [List.mem_cons, forall_eq_or_imp]
      constructor
      · intro h; cases h
      · rintro ⟨-, hall⟩
        obtain ⟨hm, ha⟩ := lookupLast_some a rest r hr
        exact absurd ha (hall r hm)
    · rename_i hr
      split
      · rename_i hca
        simp only [List.mem_cons, forall_eq_or_imp]
        constructor
        · intro h; cases h
        · rintro ⟨hc, -⟩; exact absurd hca hc
      · rename_i hca
        simp only [List.mem_cons, forall_eq_or_imp]
        constructor
        · intro h
          refine ⟨hca, ?_⟩
          rw [← ih]
          exact hr
        · intro h; trivial

/-- Membership in `creatorAddresses` names an element of the list. -/
lemma mem_creatorAddresses (a : Pubkey) (l : List Creator) :
    a ∈ creatorAddresses l ↔ ∃ c ∈ l, c.address = a := by
  simp [creatorAddresses]

/-- A deduplicated list keeps its length exactly when there was nothing to
deduplicate. -/
lemma dedup_length_eq_iff (l : List Pubkey) :
    l.dedup.length = l.length ↔ l.Nodup := by
  constructor
  · intro h
    have hs : l.dedup.Sublist l := List.dedup_sublist l
    have heq : l.dedup = l := hs.eq_of_length h
    rw [← heq]
    exact l.nodup_dedup
  · intro h
    rw [List.dedup_eq_self.mpr h]

/-- A concrete well-formed metadata record used by the concrete instances
below: one unverified creator holding all 100 shares, mutable, no
collection, no uses. -/
def mdBase : MetadataArgs where
  name := []
  symbol := []
  uri := []
  seller_fee_basis_points := 0
  primary_sale_happened := false
  is_mutable := true
  edition_nonce := none
  token_standard := none
  token_program_version := .Original
  collection := none
  uses := none
  creators := [⟨[1], false, 100⟩]

/-- C1: with no verified-flag changes in play (all creators unverified on
both sides) and the non-creator field checks satisfied, `assert_data_valid`
at the update entry point (no direct creator writes, signing authority)
accepts exactly when the shares sum to 100, the addresses are duplicate
free, the list is non-empty, and its length is within the fixed maximum —
equivalently it rejects iff the sum differs from 100, or there is a
duplicate address, or the list is empty or over-long. -/
theorem C1_creator_list_check (new old : MetadataArgs) (ua : Pubkey)
    (hname : new.name.length ≤ MAX_NAME_LENGTH)
    (hsym : new.symbol.length ≤ MAX_SYMBOL_LENGTH)
    (huri : new.uri.length ≤ MAX_URI_LENGTH)
    (hfee : new.seller_fee_basis_points ≤ 10000)
    (hnewv : ∀ c ∈ new.creators, c.verified = false)
    (holdv : ∀ c ∈ old.creators, c.verified = false) :
    assert_data_valid new ua old false true = .ok () ↔
      (sumShares new.creators = 100 ∧
       (creatorAddresses new.creators).Nodup ∧
       new.creators ≠ [] ∧
       new.creators.length ≤ MAX_CREATOR_LIMIT) := by
  unfold assert_data_valid
  rw [assert_data_validIter_ok_iff]
  have hlen : (creatorAddresses new.creators).length = new.creators.length :=
    List.length_map _ _
  constructor
  · rintro ⟨-, -, -, -, h5, h6, h7, -, h9, -⟩
    exact ⟨h9, (dedup_length_eq_iff _).mp (h7.trans hlen.symm), h6, h5⟩
  · rintro ⟨h9, h7, h6, h5⟩
    refine ⟨hname, hsym, huri, hfee, h5, h6,
      ((dedup_length_eq_iff _).mpr h7).trans hlen, ?_, h9, Or.inr ?_⟩
    · intro c hc
      refine Or.inr (Or.inr ?_)
      cases hl : lookupLast c.address old.creators with
      | some e =>
        unfold verifiedFlagOk
        rw [hnewv c hc]
        exact (holdv e (lookupLast_some _ _ _ hl).1).symm
      | none =>
        unfold verifiedFlagOk
        exact hnewv c hc
    · intro a ha
      unfold oldKeyPass
      cases hl : lookupLast a old.creators with
      | some e =>
        exact Or.inr (Or.inr (holdv e (lookupLast_some _ _ _ hl).1))
      | none => trivial

/-- C1 witness: a list of four unverified creators with shares
20+20+20+40 = 100 and distinct addresses is accepted. -/
theorem C1_creator_list_check_witness :
    assert_data_valid
      { mdBase with creators := [⟨[1], false, 20⟩, ⟨[2], false, 20⟩,
          ⟨[3], false, 20⟩, ⟨[4], false, 40⟩] } [9] mdBase false true = .ok () :=
  (C1_creator_list_check _ mdBase [9] (by decide) (by decide) (by decide)
    (by decide) (by decide) (by decide)).mpr (by decide)

/-- C4 counterexample: the claim says a new creator entry with
`verified = true` whose address is absent from the old creator list is
always rejected; but when that address is the acting update authority
itself the update is accepted. -/
theorem C4_counterexample :
    (∃ c ∈ ({ mdBase with creators := [⟨[1], true, 100⟩] } : MetadataArgs).creators,
        c.verified = true ∧
        c.address ∉ creatorAddresses ({ mdBase with creators := [⟨[2], false, 100⟩] } : MetadataArgs).creators) ∧
    assert_data_valid { mdBase with creators := [⟨[1], true, 100⟩] } [1]
      { mdBase with creators := [⟨[2], false, 100⟩] } false true = .ok () := by
  constructor
  · exact ⟨⟨[1], true, 100⟩, by decide, by decide, by decide⟩
  · decide

/-- C4 (amended): a new creator entry carrying `verified = true` whose
address is absent from the old creator list is rejected unless that
address is the acting update authority itself (the only escape at this
entry point, where the authority is a signer and direct creator writes are
disabled). -/
theorem C4_no_bootstrap (new old : MetadataArgs) (ua : Pubkey) (c : Creator)
    (hc : c ∈ new.creators) (hv : c.verified = true)
    (habsent : ∀ c' ∈ old.creators, c'.address ≠ c.address)
    (hua : c.address ≠ ua) :
    assert_data_valid new ua old false true ≠ .ok () := by
  unfold assert_data_valid
  intro hok
  rw [assert_data_validIter_ok_iff] at hok
  obtain ⟨-, -, -, -, -, -, -, h8, -, -⟩ := hok
  rcases h8 c hc with h | h | h
  · cases h
  · exact hua h.2
  · rw [(lookupLast_eq_none_iff _ _).mpr habsent] at h
    unfold verifiedFlagOk at h
    rw [hv] at h
    cases h

/-- C4 witness: a verified entry at a fresh address, submitted by an
unrelated authority, is rejected. -/
theorem C4_no_bootstrap_witness :
    assert_data_valid { mdBase with creators := [⟨[1], true, 100⟩] } [3]
      { mdBase with creators := [⟨[2], false, 100⟩] } false true ≠ .ok () :=
  C4_no_bootstrap _ _ [3] ⟨[1], true, 100⟩ (by decide) (by decide)
    (by decide) (by decide)

/-- C2 counterexample: the old metadata carries a verified collection and
the new metadata carries a different (unverified) collection, yet the
update is accepted — a verified collection can be replaced through this
operation when the incoming collection is unverified. -/
theorem C2_counterexample :
    (∃ oc, ({ mdBase with collection := some ⟨true, [7]⟩ } : MetadataArgs).collection
        = some oc ∧ oc.verified = true) ∧
    ({ mdBase with collection := some ⟨false, [8]⟩ } : MetadataArgs).collection ≠
      ({ mdBase with collection := some ⟨true, [7]⟩ } : MetadataArgs).collection ∧
    process_update_metadata_accounts_v2
      { mdBase with collection := some ⟨false, [8]⟩ }
      { mdBase with collection := some ⟨true, [7]⟩ } [0] = .ok () := by
  refine ⟨⟨⟨true, [7]⟩, rfl, rfl⟩, by decide, by decide⟩

/-- C2 (amended): when the old metadata is mutable, its collection is
verified and the data validation passes, `process_update_metadata_accounts_v2`
rejects an empty incoming collection with `CannotUpdateVerifiedCollection`
and rejects an incoming collection that claims `verified = true` with a
different key with `CollectionCannotBeVerifiedInThisInstruction`; an
incoming collection with `verified = false`, however, passes the collection
check no matter its key. -/
theorem C2_verified_collection_update (new old : MetadataArgs) (ua : Pubkey)
    (oc : Collection) (hm : old.is_mutable = true)
    (hoc : old.collection = some oc) (hv : oc.verified = true)
    (hadv : assert_data_valid new ua old false true = .ok ()) :
    (new.collection = none →
      process_update_metadata_accounts_v2 new old ua =
        .error .CannotUpdateVerifiedCollection) ∧
    (∀ nc, new.collection = some nc → nc.verified = true → nc.key ≠ oc.key →
      process_update_metadata_accounts_v2 new old ua =
        .error .CollectionCannotBeVerifiedInThisInstruction) ∧
    (∀ nc, new.collection = some nc → nc.verified = false →
      assert_collection_update_is_valid false old.collection new.collection =
        .ok ()) := by
  unfold assert_data_valid at hadv
  refine ⟨?_, ?_, ?_⟩
  · intro hnone
    have hstep : collection_update_step old new =
        .error .CannotUpdateVerifiedCollection := by
      unfold collection_update_step
      rw [hnone, hoc]
      simp [hv]
    unfold process_update_metadata_accounts_v2
      process_update_metadata_accounts_v2Iter
    simp [hm, hadv, hstep, Bind.bind, Except.bind]
  · intro nc hsome hncv hkey
    have hstep : collection_update_step old new =
        .error .CollectionCannotBeVerifiedInThisInstruction := by
      unfold collection_update_step assert_collection_update_is_valid
      rw [hsome, hoc]
      simp [hncv, hkey]
    unfold process_update_metadata_accounts_v2
      process_update_metadata_accounts_v2Iter
    simp [hm, hadv, hstep, Bind.bind, Except.bind]
  · intro nc hsome hncv
    unfold assert_collection_update_is_valid
    rw [hsome, hoc]
    simp [hncv]

/-- C2 witness: clearing a verified collection (incoming `None`) is
rejected with `CannotUpdateVerifiedCollection`. -/
theorem C2_verified_collection_update_witness :
    process_update_metadata_accounts_v2 mdBase
      { mdBase with collection := some ⟨true, [7]⟩ } [0] =
      .error .CannotUpdateVerifiedCollection :=
  (C2_verified_collection_update mdBase
    { mdBase with collection := some ⟨true, [7]⟩ } [0] ⟨true, [7]⟩ rfl rfl rfl
    (by decide)).1 rfl

/-- C3 counterexample: with an immutable old record and an attempt to flip
`is_mutable` back to true, the operation fails with `DataIsImmutable`, not
with `IsMutableCanOnlyBeFlippedToFalse` as the claim states. -/
theorem C3_counterexample :
    ({ mdBase with is_mutable := false } : MetadataArgs).is_mutable = false ∧
    mdBase.is_mutable = true ∧
    process_update_metadata_accounts_v2 mdBase
      { mdBase with is_mutable := false } [0] = .error .DataIsImmutable ∧
    process_update_metadata_accounts_v2 mdBase
      { mdBase with is_mutable := false } [0] ≠
      .error .IsMutableCanOnlyBeFlippedToFalse := by
  refine ⟨rfl, rfl, by decide, by decide⟩

/-- C3 (amended): updating an immutable old record with a new record whose
`is_mutable` is true fails — but with `DataIsImmutable`: the immutability
gate fires before the flip check is ever reached. -/
theorem C3_flip_back_fails_with_immutable (new old : MetadataArgs)
    (ua : Pubkey) (hold : old.is_mutable = false)
    (_hnew : new.is_mutable = true) :
    process_update_metadata_accounts_v2 new old ua =
      .error .DataIsImmutable := by
  unfold process_update_metadata_accounts_v2
    process_update_metadata_accounts_v2Iter
  simp [hold, Bind.bind, Except.bind, throw, throwThe, MonadExceptOf.throw]

/-- C3 witness: the amended statement at a concrete immutable record. -/
theorem C3_flip_back_fails_with_immutable_witness :
    process_update_metadata_accounts_v2 mdBase
      { mdBase with is_mutable := false } [5] = .error .DataIsImmutable :=
  C3_flip_back_fails_with_immutable mdBase
    { mdBase with is_mutable := false } [5] rfl rfl

/-- C6: whenever the old record is immutable the operation fails with
exactly `DataIsImmutable`, whatever the new record and authority — no
other check fires first, since the result is this error for every input. -/
theorem C6_immutable_always_data_is_immutable (new old : MetadataArgs)
    (ua : Pubkey) (hold : old.is_mutable = false) :
    process_update_metadata_accounts_v2 new old ua =
      .error .DataIsImmutable := by
  unfold process_update_metadata_accounts_v2
    process_update_metadata_accounts_v2Iter
  simp [hold, Bind.bind, Except.bind, throw, throwThe, MonadExceptOf.throw]

/-- C6 witness: a concrete immutable old record is rejected with
`DataIsImmutable` (here the new record would otherwise pass every check). -/
theorem C6_immutable_always_data_is_immutable_witness :
    process_update_metadata_accounts_v2 mdBase
      { mdBase with is_mutable := false } [0] = .error .DataIsImmutable :=
  C6_immutable_always_data_is_immutable mdBase
    { mdBase with is_mutable := false } [0] rfl

/-- C5: when old and new uses records both exist and the old record is
partially consumed (`total ≠ remaining`), the uses check accepts exactly
when `use_method`, `total` and `remaining` are all unchanged and the new
record is well-formed (`Single` forces total = remaining = 1; `Multiple`
forces total ≥ 2 and remaining ≤ total); any change to the three fields is
rejected. -/
theorem C5_uses_frozen_after_first_use (i cu : Uses)
    (hfrozen : cu.total ≠ cu.remaining) :
    assert_valid_use (some i) (some cu) = .ok () ↔
      (i.use_method = cu.use_method ∧ i.total = cu.total ∧
       i.remaining = cu.remaining ∧
       (i.use_method = UseMethod.Single → i.total = 1 ∧ i.remaining = 1) ∧
       (i.use_method = UseMethod.Multiple → 2 ≤ i.total ∧
         i.remaining ≤ i.total)) := by
  simp only [assert_valid_use, assert_valid_use_pair]
  constructor
  · intro hok
    split at hok
    · exact absurd hok (by simp)
    · split at hok
      · exact absurd hok (by simp)
      · rename_i hS hM
        split at hok
        · exact absurd hok (by simp)
        · split at hok
          · exact absurd hok (by simp)
          · split at hok
            · exact absurd hok (by simp)
            · rename_i hm ht hr
              have hmeq : i.use_method = cu.use_method := by
                by_contra hne; exact hm ⟨hne, hfrozen⟩
              have hteq : i.total = cu.total := by
                by_contra hne; exact ht ⟨hne, hfrozen⟩
              have hreq : i.remaining = cu.remaining := by
                by_contra hne; exact hr ⟨hne, hfrozen⟩
              refine ⟨hmeq, hteq, hreq, ?_, ?_⟩
              · intro hs
                have h1 : ¬ (i.total ≠ 1 ∨ i.remaining ≠ 1) :=
                  fun hx => hS ⟨hs, hx⟩
                omega
              · intro hmu
                have h1 : ¬ (i.total < 2 ∨ i.total < i.remaining) :=
                  fun hx => hM ⟨hmu, hx⟩
                omega
  · rintro ⟨hmeq, hteq, hreq, hS1, hM1⟩
    have c1 : ¬ (i.use_method = UseMethod.Single ∧
        (i.total ≠ 1 ∨ i.remaining ≠ 1)) := by
      rintro ⟨hs, hx⟩
      have := hS1 hs
      omega
    have c2 : ¬ (i.use_method = UseMethod.Multiple ∧
        (i.total < 2 ∨ i.total < i.remaining)) := by
      rintro ⟨hmu, hx⟩
      have := hM1 hmu
      omega
    have c3 : ¬ (i.use_method ≠ cu.use_method ∧
        cu.total ≠ cu.remaining) := by
      rintro ⟨hne, -⟩; exact hne hmeq
    have c4 : ¬ (i.total ≠ cu.total ∧ cu.total ≠ cu.remaining) := by
      rintro ⟨hne, -⟩; exact hne hteq
    have c5 : ¬ (i.remaining ≠ cu.remaining ∧ cu.total ≠ cu.remaining) := by
      rintro ⟨hne, -⟩; exact hne hreq
    rw [if_neg c1, if_neg c2, if_neg c3, if_neg c4, if_neg c5]

/-- C5 witness: a partially consumed `Multiple` record (total 5,
remaining 3) resubmitted unchanged is accepted. -/
theorem C5_uses_frozen_after_first_use_witness :
    assert_valid_use (some ⟨UseMethod.Multiple, 5, 3⟩)
      (some ⟨UseMethod.Multiple, 5, 3⟩) = .ok () :=
  (C5_uses_frozen_after_first_use ⟨UseMethod.Multiple, 5, 3⟩
    ⟨UseMethod.Multiple, 5, 3⟩ (by decide)).mpr (by decide)

/-- C10: a missing incoming uses record passes the uses check against any
old record (even a partially consumed one — the record can be removed);
and against a missing old record, an incoming record is accepted exactly
when it is well-formed. -/
theorem C10_uses_check_needs_both (cu : Option Uses) (i : Uses) :
    assert_valid_use none cu = .ok () ∧
      (assert_valid_use (some i) none = .ok () ↔
        ((i.use_method = UseMethod.Single → i.total = 1 ∧ i.remaining = 1) ∧
         (i.use_method = UseMethod.Multiple → 2 ≤ i.total ∧
           i.remaining ≤ i.total))) := by
  constructor
  · cases cu <;> rfl
  · simp only [assert_valid_use, assert_valid_use_pair]
    constructor
    · intro hok
      split at hok
      · exact absurd hok (by simp)
      · split at hok
        · exact absurd hok (by simp)
        · rename_i hS hM
          refine ⟨?_, ?_⟩
          · intro hs
            have h1 : ¬ (i.total ≠ 1 ∨ i.remaining ≠ 1) :=
              fun hx => hS ⟨hs, hx⟩
            omega
          · intro hmu
            have h1 : ¬ (i.total < 2 ∨ i.total < i.remaining) :=
              fun hx => hM ⟨hmu, hx⟩
            omega
    · rintro ⟨hS1, hM1⟩
      have c1 : ¬ (i.use_method = UseMethod.Single ∧
          (i.total ≠ 1 ∨ i.remaining ≠ 1)) := by
        rintro ⟨hs, hx⟩
        have := hS1 hs
        omega
      have c2 : ¬ (i.use_method = UseMethod.Multiple ∧
          (i.total < 2 ∨ i.total < i.remaining)) := by
        rintro ⟨hmu, hx⟩
        have := hM1 hmu
        omega
      rw [if_neg c1, if_neg c2]

/-- C9: `process_update_metadata_accounts_v2` never returns
`IsMutableCanOnlyBeFlippedToFalse`, for every input and every iteration
order of the internal hash maps: the returning branch requires the old
record to be mutable-false, but that case already returned
`DataIsImmutable` at the top of the function. -/
theorem C9_flip_error_unreachable (new old : MetadataArgs) (ua : Pubkey)
    (nIter : List Creator) (kIter : List Pubkey) :
    process_update_metadata_accounts_v2Iter new old ua nIter kIter ≠
      .error .IsMutableCanOnlyBeFlippedToFalse := by
  intro hc
  cases hm : old.is_mutable
  · simp [process_update_metadata_accounts_v2Iter, hm, Bind.bind, Except.bind,
      throw, throwThe, MonadExceptOf.throw] at hc
  · cases hadv : assert_data_validIter new ua old false true nIter kIter with
    | error e =>
      simp [process_update_metadata_accounts_v2Iter, hm, hadv, Bind.bind,
        Except.bind] at hc
      exact assert_data_validIter_ne_flip new ua old false true nIter kIter
        (by rw [hadv, hc])
    | ok u =>
      cases u
      cases hcol : collection_update_step old new with
      | error e =>
        simp [process_update_metadata_accounts_v2Iter, hm, hadv, hcol,
          Bind.bind, Except.bind] at hc
        exact collection_update_step_ne_flip old new (by rw [hcol, hc])
      | ok u =>
        cases u
        cases huse : assert_valid_use new.uses old.uses with
        | error e =>
          simp [process_update_metadata_accounts_v2Iter, hm, hadv, hcol, huse,
            Bind.bind, Except.bind] at hc
          exact assert_valid_use_ne_flip new.uses old.uses (by rw [huse, hc])
        | ok u =>
          cases u
          cases hpn : new.primary_sale_happened <;>
            cases hpo : old.primary_sale_happened <;>
              simp [process_update_metadata_accounts_v2Iter, hm, hadv, hcol,
                huse, hpn, hpo, Bind.bind, Except.bind, pure, Except.pure,
                throw, throwThe, MonadExceptOf.throw] at hc

/-- C9 witness: the theorem instantiated at a concrete input. -/
theorem C9_flip_error_unreachable_witness :
    process_update_metadata_accounts_v2Iter mdBase mdBase [0]
      mdBase.creators (creatorAddresses mdBase.creators).dedup ≠
      .error .IsMutableCanOnlyBeFlippedToFalse :=
  C9_flip_error_unreachable mdBase mdBase [0] mdBase.creators
    (creatorAddresses mdBase.creators).dedup

/-- C8 counterexample: the same input, iterated in two different (valid)
hash-map orders, produces two different errors — `CannotVerifyAnotherCreator`
when the offending verified creator is visited first, `NumericalOverflowError`
when the share overflow is hit first.  The result value is therefore not
independent of the unspecified `HashMap` iteration order. -/
theorem C8_counterexample :
    ([⟨[1], true, 200⟩, ⟨[2], false, 100⟩] : List Creator).Perm
      ({ mdBase with creators := [⟨[1], true, 200⟩, ⟨[2], false, 100⟩] } :
        MetadataArgs).creators ∧
    ([⟨[2], false, 100⟩, ⟨[1], true, 200⟩] : List Creator).Perm
      ({ mdBase with creators := [⟨[1], true, 200⟩, ⟨[2], false, 100⟩] } :
        MetadataArgs).creators ∧
    process_update_metadata_accounts_v2Iter
      { mdBase with creators := [⟨[1], true, 200⟩, ⟨[2], false, 100⟩] }
      mdBase [9] [⟨[1], true, 200⟩, ⟨[2], false, 100⟩]
      (creatorAddresses mdBase.creators).dedup =
      .error .CannotVerifyAnotherCreator ∧
    process_update_metadata_accounts_v2Iter
      { mdBase with creators := [⟨[1], true, 200⟩, ⟨[2], false, 100⟩] }
      mdBase [9] [⟨[2], false, 100⟩, ⟨[1], true, 200⟩]
      (creatorAddresses mdBase.creators).dedup =
      .error .NumericalOverflowError := by
  refine ⟨by decide, by decide, by decide, by decide⟩

/-- C8 (amended): the Ok-versus-error verdict of
`process_update_metadata_accounts_v2` does not depend on the unspecified
iteration order of its internal hash maps: for any two iteration orders of
the new-creators map (permutations of the creator list) and of the
old-creators map keys, the operation succeeds under one order iff it
succeeds under the other.  (The identity of the error on failure can
differ; mutation-freedom and absence of partial effects are inherent to
the function, which only reads its arguments and returns a value.) -/
theorem C8_ok_verdict_order_independent (new old : MetadataArgs)
    (ua : Pubkey) (n1 n2 : List Creator) (k1 k2 : List Pubkey)
    (hn1 : n1.Perm new.creators) (hn2 : n2.Perm new.creators)
    (hk1 : k1.Perm (creatorAddresses old.creators).dedup)
    (hk2 : k2.Perm (creatorAddresses old.creators).dedup) :
    (process_update_metadata_accounts_v2Iter new old ua n1 k1 = .ok () ↔
     process_update_metadata_accounts_v2Iter new old ua n2 k2 = .ok ()) := by
  have key : ∀ (n : List Creator) (k : List Pubkey), n.Perm new.creators →
      k.Perm (creatorAddresses old.creators).dedup →
      (assert_data_validIter new ua old false true n k = .ok () ↔
        assert_data_validIter new ua old false true new.creators
          (creatorAddresses old.creators).dedup = .ok ()) := by
    intro n k hn hk
    rw [assert_data_validIter_ok_iff, assert_data_validIter_ok_iff]
    have hs : sumShares n = sumShares new.creators :=
      (hn.map Creator.share).sum_eq
    rw [hs]
    constructor
    · rintro ⟨a1, a2, a3, a4, a5, a6, a7, a8, a9, a10⟩
      refine ⟨a1, a2, a3, a4, a5, a6, a7,
        fun c hc => a8 c (hn.mem_iff.mpr hc), a9, ?_⟩
      rcases a10 with h | h
      · exact Or.inl h
      · exact Or.inr (fun a ha => h a (hk.mem_iff.mpr ha))
    · rintro ⟨a1, a2, a3, a4, a5, a6, a7, a8, a9, a10⟩
      refine ⟨a1, a2, a3, a4, a5, a6, a7,
        fun c hc => a8 c (hn.mem_iff.mp hc), a9, ?_⟩
      rcases a10 with h | h
      · exact Or.inl h
      · exact Or.inr (fun a ha => h a (hk.mem_iff.mp ha))
  rw [processIter_ok_iff, processIter_ok_iff,
    key n1 k1 hn1 hk1, key n2 k2 hn2 hk2]

/-- C8 witness: the order-independence instantiated at the counterexample
input — under both orders the verdict is (equally) failure. -/
theorem C8_ok_verdict_order_independent_witness :
    (process_update_metadata_accounts_v2Iter
        { mdBase with creators := [⟨[1], true, 200⟩, ⟨[2], false, 100⟩] }
        mdBase [9] [⟨[1], true, 200⟩, ⟨[2], false, 100⟩]
        (creatorAddresses mdBase.creators).dedup = .ok () ↔
     process_update_metadata_accounts_v2Iter
        { mdBase with creators := [⟨[1], true, 200⟩, ⟨[2], false, 100⟩] }
        mdBase [9] [⟨[2], false, 100⟩, ⟨[1], true, 200⟩]
        (creatorAddresses mdBase.creators).dedup = .ok ()) :=
  C8_ok_verdict_order_independent
    { mdBase with creators := [⟨[1], true, 200⟩, ⟨[2], false, 100⟩] }
    mdBase [9] [⟨[1], true, 200⟩, ⟨[2], false, 100⟩]
    [⟨[2], false, 100⟩, ⟨[1], true, 200⟩]
    (creatorAddresses mdBase.creators).dedup
    (creatorAddresses mdBase.creators).dedup
    (by decide) (by decide) (by decide) (by decide)

/-- C7: the creator hash of `compute_metadata_hashes` is the abstract
multi-part digest applied to exactly one segment per creator, in list
order, each segment being the creator's address bytes followed by the
verified flag as one byte and the share as one byte; and the segment list
genuinely depends on the order of the creator list (two permutations of
the same creators can yield different segment lists, hence different
digest inputs). -/
theorem C7_creator_hash_segments :
    (∀ (keccak_hashv : List (List Nat) → List Nat) (creators : List Creator),
      compute_creator_hash keccak_hashv creators =
        keccak_hashv (creators.map fun c =>
          c.address ++ [if c.verified then 1 else 0, c.share])) ∧
    (∃ l1 l2 : List Creator, l1.Perm l2 ∧ creator_data l1 ≠ creator_data l2) := by
  constructor
  · intro keccak_hashv creators
    unfold compute_creator_hash creator_data
    rfl
  · exact ⟨[⟨[1], false, 0⟩, ⟨[2], false, 0⟩],
      [⟨[2], false, 0⟩, ⟨[1], false, 0⟩], by decide, by decide⟩
